import Mathlib

/-!
Verification of the rust-elf core decode layer against its specification.

The Rust sources `file.rs`, `hash.rs` and `relocation.rs` are embedded
shallowly: machine integers become `Nat` (with explicit `% 2 ^ w` where
wrapping matters), fallible operations return `Except ParseError`, and
the two operations that can panic in Rust (`FileHeader::parse_ident` and
`SysVHashTable::find`) return `Option (Except ParseError _)`, where
`none` marks a panic (out-of-bounds index, `split_at` precondition
failure, or division by zero).

The decode primitives, the lazy `U32Table`, the endianness decoder, the
`Symbol`/`StringTable` collaborators and `ProgramHeader::validate_entsize`
live in repository modules that are not part of the sources at hand
(`parse.rs`, `endian.rs`, `symbol.rs`, `string_table.rs`, `segment.rs`);
they are modelled from the specification, each marked as such.
-/

deriving instance DecidableEq for Except

namespace RustElf

/-- ELF class: 32-bit vs 64-bit (`Class` in `file.rs`). -/
inductive Class where
| ELF32
| ELF64
deriving DecidableEq, Repr

/-- Byte order (`Endian` in the parse module; spec: little vs big). -/
inductive Endian where
| Little
| Big
deriving DecidableEq, Repr

/-- The typed failure taxonomy (`ParseError`), with the payloads used by the
sources at hand and the spec's error taxonomy (section 7). -/
inductive ParseError where
| BadMagic : List Nat → ParseError
| UnsupportedVersion : Nat × Nat → ParseError
| UnsupportedElfClass : Nat → ParseError
| UnsupportedElfEndianness : Nat → ParseError
| SliceReadError : Nat × Nat → ParseError
| BadOffset : Nat → ParseError
| IntegerOverflow : ParseError
| MismatchedEntsize : Nat → ParseError
deriving DecidableEq, Repr

/-- Modelled from the spec: decode primitive value, section 4.1 — an integer
read from a byte run in the given byte order (missing `parse.rs`). -/
def decodeNat : Endian → List Nat → Nat
| .Little, bs => bs.foldr (fun b acc => b + 256 * acc) 0
| .Big, bs => bs.foldl (fun acc b => acc * 256 + b) 0

/-- Modelled from the spec: decode primitive, section 4.1 — read `w` bytes at
`offset`, advance the cursor, fail with a short-read condition if fewer than
`w` bytes remain (missing `parse.rs` / `utils.rs`). Returns (value, cursor'). -/
def parseNbytesAt (en : Endian) (w offset : Nat) (data : List Nat) :
    Except ParseError (Nat × Nat) :=
  if offset + w ≤ data.length then
    .ok (decodeNat en ((data.drop offset).take w), offset + w)
  else
    .error (.SliceReadError (offset, offset + w))

/-- Modelled from the spec: 16-bit decode primitive (missing `parse.rs`). -/
def parse_u16_at (en : Endian) (offset : Nat) (data : List Nat) :
    Except ParseError (Nat × Nat) :=
  parseNbytesAt en 2 offset data

/-- Modelled from the spec: 32-bit decode primitive (missing `parse.rs`). -/
def parse_u32_at (en : Endian) (offset : Nat) (data : List Nat) :
    Except ParseError (Nat × Nat) :=
  parseNbytesAt en 4 offset data

/-- Modelled from the spec: 64-bit decode primitive (missing `parse.rs`). -/
def parse_u64_at (en : Endian) (offset : Nat) (data : List Nat) :
    Except ParseError (Nat × Nat) :=
  parseNbytesAt en 8 offset data

/-- Two's-complement reading of a `w`-bit unsigned value as a signed integer. -/
def toSigned (w n : Nat) : Int :=
  if n < 2 ^ (w - 1) then (n : Int) else (n : Int) - 2 ^ w

/-- Modelled from the spec: signed 32-bit decode primitive (missing `parse.rs`). -/
def parse_i32_at (en : Endian) (offset : Nat) (data : List Nat) :
    Except ParseError (Int × Nat) :=
  match parseNbytesAt en 4 offset data with
  | .error e => .error e
  | .ok (v, o) => .ok (toSigned 32 v, o)

/-- Modelled from the spec: signed 64-bit decode primitive (missing `parse.rs`). -/
def parse_i64_at (en : Endian) (offset : Nat) (data : List Nat) :
    Except ParseError (Int × Nat) :=
  match parseNbytesAt en 8 offset data with
  | .error e => .error e
  | .ok (v, o) => .ok (toSigned 64 v, o)

/-! ## `hash.rs`: the SysV hash function -/

/-- The loop body of `sysv_hash` (`hash.rs` lines 33-37): 32-bit wrapping
accumulator updated per byte. -/
def sysvHashLoop : List Nat → Nat → Nat
| [], h => h
| b :: rest, h =>
  let h1 := (h * 16 + b) % 2 ^ 32
  let h2 := h1 ^^^ ((h1 >>> 24) &&& 0xf0)
  sysvHashLoop rest h2

/-- `sysv_hash` (`hash.rs` lines 32-39): loop over the name bytes, then mask
with `0xfffffff`. -/
def sysv_hash (name : List Nat) : Nat :=
  sysvHashLoop name 0 &&& 0xfffffff

/-- Following the spec's words (section 4.4): a fold starting from a 32-bit
accumulator of 0; per byte, `acc = acc * 16 + byte (mod 2 ^ 32)`, then
`acc ^= (acc >> 24) & 0xf0`; the final result masked to the low 28 bits. -/
def sysvHashSpec (name : List Nat) : Nat :=
  (name.foldl (fun acc b =>
    let a := (acc * 16 + b) % 2 ^ 32
    a ^^^ ((a >>> 24) &&& 0xf0)) 0) &&& (2 ^ 28 - 1)

lemma sysvHashLoop_eq_foldl (name : List Nat) (h : Nat) :
    sysvHashLoop name h =
      name.foldl (fun acc b =>
        let a := (acc * 16 + b) % 2 ^ 32
        a ^^^ ((a >>> 24) &&& 0xf0)) h := by
  induction name generalizing h with
  | nil => rfl
  | cons b rest ih => simp [sysvHashLoop, List.foldl, ih]

/-- Claim C2: for every byte sequence, `sysv_hash` equals the fold the spec
describes (accumulator 0; per byte `acc = acc * 16 + byte (mod 2 ^ 32)` then
`acc ^= (acc >> 24) & 0xf0`; final mask to the low 28 bits), and the hash of
the empty sequence is 0. -/
theorem sysv_hash_matches_spec_fold :
    (∀ name : List Nat, sysv_hash name = sysvHashSpec name) ∧ sysv_hash [] = 0 := by
  constructor
  · intro name
    unfold sysv_hash sysvHashSpec
    rw [sysvHashLoop_eq_foldl]
    norm_num
  · rfl

/-! ## `hash.rs`: the SysV hash table -/

/-- Modelled from the spec: the lazy indexed table over raw 32-bit words
(`U32Table` in the missing `parse.rs`, spec section 4.2): a borrow of a byte
range plus the byte order. SysV hash words are fixed 4-byte words regardless
of class (spec section 6). -/
structure U32Table where
  endian : Endian
  data : List Nat
deriving DecidableEq, Repr

/-- Modelled from the spec: table length = byte-range length divided by the
element size, the trailing partial element silently dropped (section 4.2). -/
def U32Table.len (t : U32Table) : Nat :=
  t.data.length / 4

/-- Modelled from the spec: `get(i)` — out-of-range index fails, otherwise one
element is re-decoded at `offset = i * elementSize` (section 4.2). For an
in-range index of a word table the 4-byte sub-slice is always available. -/
def U32Table.get (t : U32Table) (i : Nat) : Except ParseError Nat :=
  if i < t.len then .ok (decodeNat t.endian ((t.data.drop (i * 4)).take 4))
  else .error (.BadOffset (i * 4))

/-- Modelled from the spec: the consumed symbol-table collaborator only exposes
the fields `find` reads; `st_name` is the name offset into the string table
(missing `symbol.rs`). -/
structure Symbol where
  st_name : Nat
deriving DecidableEq, Repr

/-- Modelled from the spec: symbol table contract `get(index) -> Symbol`,
fails out of range (spec section 6); an arbitrary such access function. -/
def SymbolTable : Type :=
  Nat → Except ParseError Symbol

/-- Modelled from the spec: string table contract `getRaw(offset) -> bytes`,
fails on a bad offset (spec section 6); an arbitrary such access function. -/
def StringTable : Type :=
  Nat → Except ParseError (List Nat)

/-- `SysVHashHeader` (`hash.rs` lines 7-10). -/
structure SysVHashHeader where
  nbucket : Nat
  nchain : Nat
deriving DecidableEq, Repr

/-- `SysVHashHeader::parse_at` (`hash.rs` lines 13-23): two consecutive 32-bit
words. Returns the header and the advanced cursor. -/
def SysVHashHeader.parse_at (en : Endian) (offset : Nat) (data : List Nat) :
    Except ParseError (SysVHashHeader × Nat) :=
  match parse_u32_at en offset data with
  | .error e => .error e
  | .ok (nbucket, o1) =>
    match parse_u32_at en o1 data with
    | .error e => .error e
    | .ok (nchain, o2) => .ok (⟨nbucket, nchain⟩, o2)

/-- `u32::size_for` (missing `parse.rs`): `size_of::<u32>() = 4` for either
class. -/
def u32SizeFor (_cls : Class) : Nat := 4

/-- Rust `data.get(start..stop)` on a slice: `some` exactly when
`start ≤ stop ≤ data.len()`. -/
def getRange? (data : List Nat) (start stop : Nat) : Option (List Nat) :=
  if start ≤ stop ∧ stop ≤ data.length then some ((data.drop start).take (stop - start))
  else none

/-- `SysVHashTable` (`hash.rs` lines 41-45). -/
structure SysVHashTable where
  buckets : U32Table
  chains : U32Table
deriving DecidableEq, Repr

/-- `SysVHashTable::new` (`hash.rs` lines 51-69): decode the header, then
slice `nbucket * 4` bytes for the buckets and the next `nchain * 4` bytes for
the chains; a missing slice fails with `BadOffset` at construction. -/
def SysVHashTable.new (en : Endian) (cls : Class) (data : List Nat) :
    Except ParseError SysVHashTable :=
  match SysVHashHeader.parse_at en 0 data with
  | .error e => .error e
  | .ok (hdr, offset) =>
    let bucket_size := hdr.nbucket * u32SizeFor cls
    match getRange? data offset (offset + bucket_size) with
    | none => .error (.BadOffset offset)
    | some bucket_buf =>
      let buckets : U32Table := ⟨en, bucket_buf⟩
      let offset1 := offset + bucket_size
      let chain_size := hdr.nchain * u32SizeFor cls
      match getRange? data offset1 (offset1 + chain_size) with
      | none => .error (.BadOffset offset1)
      | some chain_buf =>
        let chains : U32Table := ⟨en, chain_buf⟩
        .ok ⟨buckets, chains⟩

/-- The chain-walk loop of `SysVHashTable::find` (`hash.rs` lines 83-92),
with the loop counter `i` replaced by the remaining fuel
`chains.len() - i`; the loop condition `index != 0 && i < chains.len()`
becomes `index ≠ 0 ∧ fuel ≠ 0`. -/
def findLoop (chains : U32Table) (name : List Nat) (symtab : SymbolTable)
    (strtab : StringTable) : Nat → Nat → Except ParseError (Option (Nat × Symbol))
| _, 0 => .ok none
| index, fuel + 1 =>
  if index = 0 then .ok none
  else
    match symtab index with
    | .error e => .error e
    | .ok symbol =>
      match strtab symbol.st_name with
      | .error e => .error e
      | .ok raw =>
        if raw = name then .ok (some (index, symbol))
        else
          match chains.get index with
          | .error e => .error e
          | .ok next => findLoop chains name symtab strtab next fuel

/-- `SysVHashTable::find` (`hash.rs` lines 72-94). The Rust expression
`(hash as usize) % self.buckets.len()` panics on a division by zero when the
bucket table is empty; a panic is modelled as `none`. -/
def SysVHashTable.find (tbl : SysVHashTable) (name : List Nat) (hsh : Nat)
    (symtab : SymbolTable) (strtab : StringTable) :
    Option (Except ParseError (Option (Nat × Symbol))) :=
  if tbl.buckets.len = 0 then none
  else
    let start := hsh % tbl.buckets.len
    some (match tbl.buckets.get start with
      | .error e => .error e
      | .ok index => findLoop tbl.chains name symtab strtab index tbl.chains.len)

/-- Number of loop iterations `find`'s chain walk performs, counted exactly
when the code executes `index = self.chains.get(index)?` / `i += 1`
(an iteration that returns early is not counted, which only lowers the tally). -/
def findLoopSteps (chains : U32Table) (name : List Nat) (symtab : SymbolTable)
    (strtab : StringTable) : Nat → Nat → Nat
| _, 0 => 0
| index, fuel + 1 =>
  if index = 0 then 0
  else
    match symtab index with
    | .error _ => 0
    | .ok symbol =>
      match strtab symbol.st_name with
      | .error _ => 0
      | .ok raw =>
        if raw = name then 0
        else
          match chains.get index with
          | .error _ => 1
          | .ok next => 1 + findLoopSteps chains name symtab strtab next fuel

/-- Chain steps taken by `find`; `none` when `find` panics. -/
def SysVHashTable.findSteps (tbl : SysVHashTable) (name : List Nat) (hsh : Nat)
    (symtab : SymbolTable) (strtab : StringTable) : Option Nat :=
  if tbl.buckets.len = 0 then none
  else
    let start := hsh % tbl.buckets.len
    some (match tbl.buckets.get start with
      | .error _ => 0
      | .ok index => findLoopSteps tbl.chains name symtab strtab index tbl.chains.len)

lemma findLoopSteps_le (chains : U32Table) (name : List Nat) (symtab : SymbolTable)
    (strtab : StringTable) :
    ∀ fuel index, findLoopSteps chains name symtab strtab index fuel ≤ fuel := by
  intro fuel
  induction fuel with
  | zero => intro index; simp [findLoopSteps]
  | succ n ih =>
    intro index
    unfold findLoopSteps
    split
    · omega
    · cases symtab index with
      | error e => simp
      | ok symbol =>
        simp only
        cases strtab symbol.st_name with
        | error e => simp
        | ok raw =>
          simp only
          split
          · omega
          · cases chains.get index with
            | error e => simp
            | ok next =>
              simp only
              have := ih next
              omega

lemma findLoop_cyclic (chains : U32Table) (name : List Nat) (symtab : SymbolTable)
    (strtab : StringTable) (c : Nat) (s : Symbol) (n : List Nat)
    (hc : c ≠ 0) (hloop : chains.get c = .ok c) (hs : symtab c = .ok s)
    (hn : strtab s.st_name = .ok n) (hne : n ≠ name) :
    ∀ fuel, findLoop chains name symtab strtab c fuel = .ok none := by
  intro fuel
  induction fuel with
  | zero => rfl
  | succ m ih =>
    unfold findLoop
    simp only [if_neg hc, hs, hn, if_neg hne, hloop]
    exact ih

/-- Claim C1: `find` always terminates (it is a total function of its
arguments); its chain walk performs at most `chainCount` steps; and on a
chain that cycles without reaching the 0 terminator (here: a self-loop at a
nonzero index whose symbol does not match) it returns the not-found result
`Ok(None)` instead of hanging. -/
theorem find_bounded_steps_and_cyclic_not_found (tbl : SysVHashTable)
    (name : List Nat) (hsh : Nat) (symtab : SymbolTable) (strtab : StringTable) :
    (tbl.findSteps name hsh symtab strtab).getD 0 ≤ tbl.chains.len ∧
    (∀ c s n, tbl.buckets.len ≠ 0 →
      tbl.buckets.get (hsh % tbl.buckets.len) = .ok c → c ≠ 0 →
      tbl.chains.get c = .ok c → symtab c = .ok s →
      strtab s.st_name = .ok n → n ≠ name →
      tbl.find name hsh symtab strtab = some (.ok none)) := by
  constructor
  · unfold SysVHashTable.findSteps
    split
    · simp
    · simp only [Option.getD_some]
      split
      · exact Nat.zero_le _
      · exact findLoopSteps_le tbl.chains name symtab strtab tbl.chains.len _
  · intro c s n hlen hget hc hloop hs hn hne
    unfold SysVHashTable.find
    simp only [if_neg hlen, hget,
      findLoop_cyclic tbl.chains name symtab strtab c s n hc hloop hs hn hne]

/-- Witness for claim C1: the spec's cyclic example — one bucket pointing at
index 1 and `chain[1] = 1`, with a non-matching symbol name at index 1 —
where lookup returns not-found. -/
theorem find_bounded_steps_and_cyclic_not_found_witness :
    SysVHashTable.find ⟨⟨.Little, [1, 0, 0, 0]⟩, ⟨.Little, [0, 0, 0, 0, 1, 0, 0, 0]⟩⟩
      [97] 0 (fun i => .ok ⟨i⟩) (fun o => .ok [o]) = some (.ok none) :=
  (find_bounded_steps_and_cyclic_not_found
      ⟨⟨.Little, [1, 0, 0, 0]⟩, ⟨.Little, [0, 0, 0, 0, 1, 0, 0, 0]⟩⟩
      [97] 0 (fun i => .ok ⟨i⟩) (fun o => .ok [o])).2 1 ⟨1⟩ [1]
    (by decide) (by decide) (by decide) (by decide) rfl rfl (by decide)

/-- One completed, non-matching iteration of `find`'s chain walk: the current
index is nonzero, its symbol and name resolve, the name does not match, and
the chain table yields the next index. -/
def nonMatchStep (chains : U32Table) (name : List Nat) (symtab : SymbolTable)
    (strtab : StringTable) (idx nxt : Nat) : Prop :=
  idx ≠ 0 ∧ ∃ s n, symtab idx = .ok s ∧ strtab s.st_name = .ok n ∧ n ≠ name ∧
    chains.get idx = .ok nxt

/-- `WalkTo chains name symtab strtab idx fuel m fuel'`: starting at `idx`
with `fuel` iterations remaining, a sequence of completed non-matching
iterations reaches index `m` with `fuel'` iterations remaining. -/
inductive WalkTo (chains : U32Table) (name : List Nat) (symtab : SymbolTable)
    (strtab : StringTable) : Nat → Nat → Nat → Nat → Prop where
| refl (idx fuel : Nat) : WalkTo chains name symtab strtab idx fuel idx fuel
| step {idx nxt m fuel fuel' : Nat} :
    nonMatchStep chains name symtab strtab idx nxt →
    WalkTo chains name symtab strtab nxt fuel m fuel' →
    WalkTo chains name symtab strtab idx (fuel + 1) m fuel'

lemma findLoop_succ (chains : U32Table) (name : List Nat) (symtab : SymbolTable)
    (strtab : StringTable) (index fuel : Nat) :
    findLoop chains name symtab strtab index (fuel + 1) =
      (if index = 0 then .ok none
       else
         match symtab index with
         | .error e => .error e
         | .ok symbol =>
           match strtab symbol.st_name with
           | .error e => .error e
           | .ok raw =>
             if raw = name then .ok (some (index, symbol))
             else
               match chains.get index with
               | .error e => .error e
               | .ok next => findLoop chains name symtab strtab next fuel) := rfl

lemma findLoop_of_walkTo {chains : U32Table} {name : List Nat}
    {symtab : SymbolTable} {strtab : StringTable} {idx fuel m fuel' : Nat}
    (h : WalkTo chains name symtab strtab idx fuel m fuel') :
    findLoop chains name symtab strtab idx fuel =
      findLoop chains name symtab strtab m fuel' := by
  induction h with
  | refl idx fuel => rfl
  | step hstep _ ih =>
    obtain ⟨hidx, s, n, hs, hn, hne, hnext⟩ := hstep
    rw [findLoop_succ]
    simp only [if_neg hidx, hs, hn, if_neg hne, hnext]
    exact ih

/-- Claim C4: when the bucket table is nonempty and the chain walk, starting
at `bucket[hash mod bucketCount]`, reaches within `chainCount` steps and
before the 0 terminator a nonzero index whose symbol's name resolves to the
queried name (all earlier indices resolving to non-matching names), `find`
returns `Ok(Some((index, symbol)))` for that first matching index. -/
theorem find_returns_first_match (tbl : SysVHashTable) (name : List Nat)
    (hsh : Nat) (symtab : SymbolTable) (strtab : StringTable) (c m : Nat)
    (fuel' : Nat) (s : Symbol)
    (hlen : tbl.buckets.len ≠ 0)
    (hstart : tbl.buckets.get (hsh % tbl.buckets.len) = .ok c)
    (hwalk : WalkTo tbl.chains name symtab strtab c tbl.chains.len m fuel')
    (hfuel : fuel' ≠ 0) (hm : m ≠ 0)
    (hs : symtab m = .ok s) (hraw : strtab s.st_name = .ok name) :
    tbl.find name hsh symtab strtab = some (.ok (some (m, s))) := by
  unfold SysVHashTable.find
  simp only [if_neg hlen, hstart, findLoop_of_walkTo hwalk]
  obtain ⟨k, rfl⟩ := Nat.exists_eq_succ_of_ne_zero hfuel
  rw [findLoop_succ]
  simp [if_neg hm, hs, hraw]

/-- Witness for claim C4: the spec's example — `nbucket = 1`, `nchain = 2`,
`bucket[0] = 1`, `chain[1] = 0`, symbol 1's name matching the query — where
lookup returns `(1, symbol)`. -/
theorem find_returns_first_match_witness :
    SysVHashTable.find ⟨⟨.Little, [1, 0, 0, 0]⟩, ⟨.Little, [0, 0, 0, 0, 0, 0, 0, 0]⟩⟩
      [102] 0 (fun i => if i = 1 then .ok ⟨5⟩ else .error (.BadOffset i))
      (fun o => if o = 5 then .ok [102] else .error (.BadOffset o)) =
      some (.ok (some (1, ⟨5⟩))) :=
  find_returns_first_match
    ⟨⟨.Little, [1, 0, 0, 0]⟩, ⟨.Little, [0, 0, 0, 0, 0, 0, 0, 0]⟩⟩
    [102] 0 (fun i => if i = 1 then .ok ⟨5⟩ else .error (.BadOffset i))
    (fun o => if o = 5 then .ok [102] else .error (.BadOffset o)) 1 1 2 ⟨5⟩
    (by decide) (by decide) (.refl 1 2) (by decide) (by decide)
    (by decide) (by decide)

/-- Claim C10: a corrupt chain entry whose index the chain table, the symbol
table, or the string table rejects makes `find` propagate that typed error
instead of answering not-found: if the walk reaches, with iterations still
remaining, a nonzero index at which the symbol lookup errors, the name lookup
errors, or (after a non-matching name) the chain-table access errors, then
`find` returns exactly that error. -/
theorem find_propagates_access_errors (tbl : SysVHashTable) (name : List Nat)
    (hsh : Nat) (symtab : SymbolTable) (strtab : StringTable) (c m : Nat)
    (fuel' : Nat) (e : ParseError)
    (hlen : tbl.buckets.len ≠ 0)
    (hstart : tbl.buckets.get (hsh % tbl.buckets.len) = .ok c)
    (hwalk : WalkTo tbl.chains name symtab strtab c tbl.chains.len m fuel')
    (hfuel : fuel' ≠ 0) (hm : m ≠ 0)
    (herr : symtab m = .error e ∨
      (∃ s, symtab m = .ok s ∧ strtab s.st_name = .error e) ∨
      (∃ s n, symtab m = .ok s ∧ strtab s.st_name = .ok n ∧ n ≠ name ∧
        tbl.chains.get m = .error e)) :
    tbl.find name hsh symtab strtab = some (.error e) := by
  unfold SysVHashTable.find
  simp only [if_neg hlen, hstart, findLoop_of_walkTo hwalk]
  obtain ⟨k, rfl⟩ := Nat.exists_eq_succ_of_ne_zero hfuel
  rw [findLoop_succ]
  rcases herr with hsym | ⟨s, hs, hn⟩ | ⟨s, n, hs, hn, hne, hch⟩
  · simp only [if_neg hm, hsym]
  · simp only [if_neg hm, hs, hn]
  · simp only [if_neg hm, hs, hn, if_neg hne, hch]

/-- Witness for claim C10: `nbucket = 1`, `nchain = 1`, `bucket[0] = 1`; the
chain entry index 1 is outside the chain table's range, so after the
non-matching symbol at index 1 the chain access fails and `find` returns
`BadOffset 4` rather than not-found. -/
theorem find_propagates_access_errors_witness :
    SysVHashTable.find ⟨⟨.Little, [1, 0, 0, 0]⟩, ⟨.Little, [0, 0, 0, 0]⟩⟩
      [97] 0 (fun i => .ok ⟨i⟩) (fun o => .ok [o]) =
      some (.error (.BadOffset 4)) :=
  find_propagates_access_errors
    ⟨⟨.Little, [1, 0, 0, 0]⟩, ⟨.Little, [0, 0, 0, 0]⟩⟩
    [97] 0 (fun i => .ok ⟨i⟩) (fun o => .ok [o]) 1 1 1 (.BadOffset 4)
    (by decide) (by decide) (.refl 1 1) (by decide) (by decide)
    (.inr (.inr ⟨⟨1⟩, [1], rfl, rfl, by decide, by decide⟩))

/-! ## `file.rs`: identification block and file-header tail -/

namespace abi

/-- The fixed ELF magic, bytes 0x7f 'E' 'L' 'F' (`abi.rs`, per spec section 6). -/
def ELFMAGIC : List Nat := [0x7f, 0x45, 0x4c, 0x46]

def EI_CLASS : Nat := 4
def EI_DATA : Nat := 5
def EI_VERSION : Nat := 6
def EI_OSABI : Nat := 7
def EI_ABIVERSION : Nat := 8
def ELFCLASS32 : Nat := 1
def ELFCLASS64 : Nat := 2
def ELFDATA2LSB : Nat := 1
def ELFDATA2MSB : Nat := 2
def EV_CURRENT : Nat := 1

end abi

/-- `FileHeader` (`file.rs` lines 30-85); the Rust field `class` is spelled
`cls` because `class` is a Lean keyword. `e_entry`, `e_phoff`, `e_shoff` are
stored widened to 64 bits (`u64`). -/
structure FileHeader where
  cls : Class
  ei_data : Nat
  version : Nat
  osabi : Nat
  abiversion : Nat
  e_type : Nat
  e_machine : Nat
  e_entry : Nat
  e_phoff : Nat
  e_shoff : Nat
  e_flags : Nat
  e_ehsize : Nat
  e_phentsize : Nat
  e_phnum : Nat
  e_shentsize : Nat
  e_shnum : Nat
  e_shstrndx : Nat
deriving DecidableEq, Repr

def ELF32_EHDR_TAILSIZE : Nat := 36
def ELF64_EHDR_TAILSIZE : Nat := 48

/-- `FileHeader::verify_ident` (`file.rs` lines 92-111). Rust's
`buf.split_at(4)` panics when the buffer is shorter than 4 bytes, and
`buf[EI_VERSION]` panics when index 6 is out of bounds; a panic is `none`. -/
def FileHeader.verify_ident (buf : List Nat) : Option (Except ParseError Unit) :=
  if abi.EI_CLASS ≤ buf.length then
    let magic := buf.take abi.EI_CLASS
    if magic ≠ abi.ELFMAGIC then some (.error (.BadMagic magic))
    else
      match buf[abi.EI_VERSION]? with
      | none => none
      | some version =>
        if version ≠ abi.EV_CURRENT then
          some (.error (.UnsupportedVersion (version, abi.EV_CURRENT)))
        else some (.ok ())
  else none

/-- `FileHeader::parse_ident` (`file.rs` lines 113-131). The unchecked
indexing `data[EI_CLASS]`, `data[EI_DATA]`, `data[EI_OSABI]`,
`data[EI_ABIVERSION]` panics (`none`) when out of bounds. -/
def FileHeader.parse_ident (data : List Nat) :
    Option (Except ParseError (Nat × Class × Nat × Nat)) :=
  match FileHeader.verify_ident data with
  | none => none
  | some (.error e) => some (.error e)
  | some (.ok ()) =>
    match data[abi.EI_CLASS]? with
    | none => none
    | some e_class =>
      if e_class = abi.ELFCLASS32 ∨ e_class = abi.ELFCLASS64 then
        let cls := if e_class = abi.ELFCLASS32 then Class.ELF32 else Class.ELF64
        match data[abi.EI_DATA]?, data[abi.EI_OSABI]?, data[abi.EI_ABIVERSION]? with
        | some ei_data, some osabi, some abiversion =>
          some (.ok (ei_data, cls, osabi, abiversion))
        | _, _, _ => none
      else some (.error (.UnsupportedElfClass e_class))

/-- Modelled from the spec: `AnyEndian::from_ei_data` (missing `endian.rs`);
spec section 6: endian code 1 = little, 2 = big, anything else invalid. -/
def AnyEndian.from_ei_data (ei : Nat) : Except ParseError Endian :=
  if ei = abi.ELFDATA2LSB then .ok .Little
  else if ei = abi.ELFDATA2MSB then .ok .Big
  else .error (.UnsupportedElfEndianness ei)

/-- `FileHeader::parse_tail` (`file.rs` lines 133-186): validate the endian
code, then decode the class/endian-dependent tail in file order. -/
def FileHeader.parse_tail (ident : Nat × Class × Nat × Nat) (data : List Nat) :
    Except ParseError FileHeader := do
  let (ei_data, cls, osabi, abiversion) := ident
  let file_endian ← AnyEndian.from_ei_data ei_data
  let (e_type, o1) ← parse_u16_at file_endian 0 data
  let (e_machine, o2) ← parse_u16_at file_endian o1 data
  let (version, o3) ← parse_u32_at file_endian o2 data
  let (e_entry, e_phoff, e_shoff, o6) ←
    match cls with
    | .ELF32 => do
      let (e_entry, o4) ← parse_u32_at file_endian o3 data
      let (e_phoff, o5) ← parse_u32_at file_endian o4 data
      let (e_shoff, o6) ← parse_u32_at file_endian o5 data
      pure (e_entry, e_phoff, e_shoff, o6)
    | .ELF64 => do
      let (e_entry, o4) ← parse_u64_at file_endian o3 data
      let (e_phoff, o5) ← parse_u64_at file_endian o4 data
      let (e_shoff, o6) ← parse_u64_at file_endian o5 data
      pure (e_entry, e_phoff, e_shoff, o6)
  let (e_flags, o7) ← parse_u32_at file_endian o6 data
  let (e_ehsize, o8) ← parse_u16_at file_endian o7 data
  let (e_phentsize, o9) ← parse_u16_at file_endian o8 data
  let (e_phnum, o10) ← parse_u16_at file_endian o9 data
  let (e_shentsize, o11) ← parse_u16_at file_endian o10 data
  let (e_shnum, o12) ← parse_u16_at file_endian o11 data
  let (e_shstrndx, _o13) ← parse_u16_at file_endian o12 data
  pure { cls, ei_data, version, osabi, abiversion, e_type, e_machine,
         e_entry, e_phoff, e_shoff, e_flags, e_ehsize, e_phentsize,
         e_phnum, e_shentsize, e_shnum, e_shstrndx }

/-- Modelled from the spec: the program-header component's entry-size
validation (missing `segment.rs`); the one fixed expected size for the active
class is 0x20 for 32-bit and 0x38 for 64-bit program headers, a mismatch is
the `MismatchedEntsize` error. -/
def ProgramHeader.validate_entsize (cls : Class) (sz : Nat) :
    Except ParseError Nat :=
  let expected : Nat := match cls with | .ELF32 => 0x20 | .ELF64 => 0x38
  if sz = expected then .ok sz else .error (.MismatchedEntsize sz)

/-- Rust `usize::checked_mul` for a `W`-bit `usize`: `none` on overflow. -/
def checked_mul (W a b : Nat) : Option Nat :=
  if a * b < 2 ^ W then some (a * b) else none

/-- Rust `usize::checked_add` for a `W`-bit `usize`: `none` on overflow. -/
def checked_add (W a b : Nat) : Option Nat :=
  if a + b < 2 ^ W then some (a + b) else none

/-- Rust `usize::try_from(u64)` for a `W`-bit `usize`; the failure converts
into the range/overflow parse error. -/
def usize_try_from (W v : Nat) : Except ParseError Nat :=
  if v < 2 ^ W then .ok v else .error .IntegerOverflow

/-- `FileHeader::get_phdrs_data_range` (`file.rs` lines 193-208),
parameterized by the platform's `usize` width `W`. -/
def FileHeader.get_phdrs_data_range (W : Nat) (h : FileHeader) :
    Except ParseError (Option (Nat × Nat)) :=
  if h.e_phnum = 0 then .ok none
  else
    match ProgramHeader.validate_entsize h.cls h.e_phentsize with
    | .error e => .error e
    | .ok entsize =>
      match usize_try_from W h.e_phoff with
      | .error e => .error e
      | .ok start =>
        match checked_mul W entsize h.e_phnum with
        | none => .error .IntegerOverflow
        | some size =>
          match checked_add W start size with
          | none => .error .IntegerOverflow
          | some e => .ok (some (start, e))

/-! ## `relocation.rs`: Rel and Rela records -/

/-- `Rel` (`relocation.rs` lines 7-11). -/
structure Rel where
  r_offset : Nat
  r_sym : Nat
  r_type : Nat
deriving DecidableEq, Repr

/-- `Rel::parse_at` (`relocation.rs` lines 13-41): class-branching decode;
32-bit packs (sym, type) as (info >> 8, info & 0xFF), 64-bit as
(info >> 32, info & 0xFFFFFFFF). Returns the record and the advanced cursor. -/
def Rel.parse_at (en : Endian) (cls : Class) (offset : Nat) (data : List Nat) :
    Except ParseError (Rel × Nat) :=
  match cls with
  | .ELF32 =>
    match parse_u32_at en offset data with
    | .error e => .error e
    | .ok (r_offset, o1) =>
      match parse_u32_at en o1 data with
      | .error e => .error e
      | .ok (r_info, o2) =>
        .ok (⟨r_offset, r_info >>> 8, r_info &&& 0xFF⟩, o2)
  | .ELF64 =>
    match parse_u64_at en offset data with
    | .error e => .error e
    | .ok (r_offset, o1) =>
      match parse_u64_at en o1 data with
      | .error e => .error e
      | .ok (r_info, o2) =>
        .ok (⟨r_offset, r_info >>> 32, r_info &&& 0xFFFFFFFF⟩, o2)

/-- `Rela` (`relocation.rs` lines 43-49); `r_addend` is a signed 64-bit
value, so it is an `Int` here. -/
structure Rela where
  r_offset : Nat
  r_sym : Nat
  r_type : Nat
  r_addend : Int
deriving DecidableEq, Repr

/-- `Rela::parse_at` (`relocation.rs` lines 51-83): as `Rel::parse_at` plus a
signed addend at native width, widened to `i64` preserving sign. -/
def Rela.parse_at (en : Endian) (cls : Class) (offset : Nat) (data : List Nat) :
    Except ParseError (Rela × Nat) :=
  match cls with
  | .ELF32 =>
    match parse_u32_at en offset data with
    | .error e => .error e
    | .ok (r_offset, o1) =>
      match parse_u32_at en o1 data with
      | .error e => .error e
      | .ok (r_info, o2) =>
        match parse_i32_at en o2 data with
        | .error e => .error e
        | .ok (r_addend, o3) =>
          .ok (⟨r_offset, r_info >>> 8, r_info &&& 0xFF, r_addend⟩, o3)
  | .ELF64 =>
    match parse_u64_at en offset data with
    | .error e => .error e
    | .ok (r_offset, o1) =>
      match parse_u64_at en o1 data with
      | .error e => .error e
      | .ok (r_info, o2) =>
        match parse_i64_at en o2 data with
        | .error e => .error e
        | .ok (r_addend, o3) =>
          .ok (⟨r_offset, r_info >>> 32, r_info &&& 0xFFFFFFFF, r_addend⟩, o3)


/-! ## Helper lemmas for sequential-parse proofs -/

lemma parseNbytesAt_ok (en : Endian) (w offset : Nat) (data : List Nat)
    (h : offset + w ≤ data.length) :
    parseNbytesAt en w offset data =
      .ok (decodeNat en ((data.drop offset).take w), offset + w) :=
  if_pos h

lemma parseNbytesAt_err (en : Endian) (w offset : Nat) (data : List Nat)
    (h : data.length < offset + w) :
    parseNbytesAt en w offset data = .error (.SliceReadError (offset, offset + w)) :=
  if_neg (by omega)

lemma except_pure_eq_ok {e a : Type} (x : a) : (Except.pure x : Except e a) = .ok x := rfl

/-- The required tail size per class (spec section 4.3; `file.rs` lines 87-88). -/
def requiredTailSize : Class → Nat
| .ELF32 => ELF32_EHDR_TAILSIZE
| .ELF64 => ELF64_EHDR_TAILSIZE

/-- Full characterization of a successful 32-bit `parse_tail`: every field is
an independent fixed-offset decode. -/
lemma parse_tail_elf32_ok (ei : Nat) (en : Endian) (osabi abiver : Nat)
    (data : List Nat) (hen : AnyEndian.from_ei_data ei = .ok en)
    (h : 36 ≤ data.length) :
    FileHeader.parse_tail (ei, .ELF32, osabi, abiver) data = .ok
      { cls := .ELF32, ei_data := ei, osabi := osabi, abiversion := abiver,
        e_type := decodeNat en ((data.drop 0).take 2),
        e_machine := decodeNat en ((data.drop 2).take 2),
        version := decodeNat en ((data.drop 4).take 4),
        e_entry := decodeNat en ((data.drop 8).take 4),
        e_phoff := decodeNat en ((data.drop 12).take 4),
        e_shoff := decodeNat en ((data.drop 16).take 4),
        e_flags := decodeNat en ((data.drop 20).take 4),
        e_ehsize := decodeNat en ((data.drop 24).take 2),
        e_phentsize := decodeNat en ((data.drop 26).take 2),
        e_phnum := decodeNat en ((data.drop 28).take 2),
        e_shentsize := decodeNat en ((data.drop 30).take 2),
        e_shnum := decodeNat en ((data.drop 32).take 2),
        e_shstrndx := decodeNat en ((data.drop 34).take 2) } := by
  simp only [FileHeader.parse_tail, hen, parse_u16_at, parse_u32_at, parse_u64_at,
    bind, Except.bind, pure, except_pure_eq_ok,
    parseNbytesAt_ok en 2 0 data (by omega), parseNbytesAt_ok en 2 2 data (by omega),
    parseNbytesAt_ok en 4 4 data (by omega), parseNbytesAt_ok en 4 8 data (by omega),
    parseNbytesAt_ok en 4 12 data (by omega), parseNbytesAt_ok en 4 16 data (by omega),
    parseNbytesAt_ok en 4 20 data (by omega), parseNbytesAt_ok en 2 24 data (by omega),
    parseNbytesAt_ok en 2 26 data (by omega), parseNbytesAt_ok en 2 28 data (by omega),
    parseNbytesAt_ok en 2 30 data (by omega), parseNbytesAt_ok en 2 32 data (by omega),
    parseNbytesAt_ok en 2 34 data (by omega), Nat.reduceAdd]

/-- Full characterization of a successful 64-bit `parse_tail`. -/
lemma parse_tail_elf64_ok (ei : Nat) (en : Endian) (osabi abiver : Nat)
    (data : List Nat) (hen : AnyEndian.from_ei_data ei = .ok en)
    (h : 48 ≤ data.length) :
    FileHeader.parse_tail (ei, .ELF64, osabi, abiver) data = .ok
      { cls := .ELF64, ei_data := ei, osabi := osabi, abiversion := abiver,
        e_type := decodeNat en ((data.drop 0).take 2),
        e_machine := decodeNat en ((data.drop 2).take 2),
        version := decodeNat en ((data.drop 4).take 4),
        e_entry := decodeNat en ((data.drop 8).take 8),
        e_phoff := decodeNat en ((data.drop 16).take 8),
        e_shoff := decodeNat en ((data.drop 24).take 8),
        e_flags := decodeNat en ((data.drop 32).take 4),
        e_ehsize := decodeNat en ((data.drop 36).take 2),
        e_phentsize := decodeNat en ((data.drop 38).take 2),
        e_phnum := decodeNat en ((data.drop 40).take 2),
        e_shentsize := decodeNat en ((data.drop 42).take 2),
        e_shnum := decodeNat en ((data.drop 44).take 2),
        e_shstrndx := decodeNat en ((data.drop 46).take 2) } := by
  simp only [FileHeader.parse_tail, hen, parse_u16_at, parse_u32_at, parse_u64_at,
    bind, Except.bind, pure, except_pure_eq_ok,
    parseNbytesAt_ok en 2 0 data (by omega), parseNbytesAt_ok en 2 2 data (by omega),
    parseNbytesAt_ok en 4 4 data (by omega), parseNbytesAt_ok en 8 8 data (by omega),
    parseNbytesAt_ok en 8 16 data (by omega), parseNbytesAt_ok en 8 24 data (by omega),
    parseNbytesAt_ok en 4 32 data (by omega), parseNbytesAt_ok en 2 36 data (by omega),
    parseNbytesAt_ok en 2 38 data (by omega), parseNbytesAt_ok en 2 40 data (by omega),
    parseNbytesAt_ok en 2 42 data (by omega), parseNbytesAt_ok en 2 44 data (by omega),
    parseNbytesAt_ok en 2 46 data (by omega), Nat.reduceAdd]

/-- Claim C5: for either class and either valid endianness, `parse_tail` on a
tail buffer shorter than the required tail size (36 bytes for 32-bit, 48 for
64-bit) fails with a short-read error — no partial header — and at exactly
the required size it succeeds. -/
theorem parse_tail_short_read_and_exact_size (ei : Nat) (en : Endian)
    (cls : Class) (osabi abiver : Nat) (data : List Nat)
    (hen : AnyEndian.from_ei_data ei = .ok en) :
    (data.length < requiredTailSize cls →
      ∃ p, FileHeader.parse_tail (ei, cls, osabi, abiver) data =
        .error (.SliceReadError p)) ∧
    (data.length = requiredTailSize cls →
      ∃ hd, FileHeader.parse_tail (ei, cls, osabi, abiver) data = .ok hd) := by
  constructor
  · intro hlt
    cases cls with
    | ELF32 =>
      have hlt2 : data.length < 36 := hlt
      rcases Nat.lt_or_ge data.length 2 with hb0 | hb0
      · simp only [FileHeader.parse_tail, hen, parse_u16_at, parse_u32_at, parse_u64_at,
        bind, Except.bind, pure, except_pure_eq_ok,
        parseNbytesAt_err en 2 0 data (by omega),
        Nat.reduceAdd]
        exact ⟨_, rfl⟩
      rcases Nat.lt_or_ge data.length 4 with hb1 | hb1
      · simp only [FileHeader.parse_tail, hen, parse_u16_at, parse_u32_at, parse_u64_at,
        bind, Except.bind, pure, except_pure_eq_ok,
        parseNbytesAt_ok en 2 0 data (by omega), parseNbytesAt_err en 2 2 data (by omega),
        Nat.reduceAdd]
        exact ⟨_, rfl⟩
      rcases Nat.lt_or_ge data.length 8 with hb2 | hb2
      · simp only [FileHeader.parse_tail, hen, parse_u16_at, parse_u32_at, parse_u64_at,
        bind, Except.bind, pure, except_pure_eq_ok,
        parseNbytesAt_ok en 2 0 data (by omega), parseNbytesAt_ok en 2 2 data (by omega),
        parseNbytesAt_err en 4 4 data (by omega),
        Nat.reduceAdd]
        exact ⟨_, rfl⟩
      rcases Nat.lt_or_ge data.length 12 with hb3 | hb3
      · simp only [FileHeader.parse_tail, hen, parse_u16_at, parse_u32_at, parse_u64_at,
        bind, Except.bind, pure, except_pure_eq_ok,
        parseNbytesAt_ok en 2 0 data (by omega), parseNbytesAt_ok en 2 2 data (by omega),
        parseNbytesAt_ok en 4 4 data (by omega), parseNbytesAt_err en 4 8 data (by omega),
        Nat.reduceAdd]
        exact ⟨_, rfl⟩
      rcases Nat.lt_or_ge data.length 16 with hb4 | hb4
      · simp only [FileHeader.parse_tail, hen, parse_u16_at, parse_u32_at, parse_u64_at,
        bind, Except.bind, pure, except_pure_eq_ok,
        parseNbytesAt_ok en 2 0 data (by omega), parseNbytesAt_ok en 2 2 data (by omega),
        parseNbytesAt_ok en 4 4 data (by omega), parseNbytesAt_ok en 4 8 data (by omega),
        parseNbytesAt_err en 4 12 data (by omega),
        Nat.reduceAdd]
        exact ⟨_, rfl⟩
      rcases Nat.lt_or_ge data.length 20 with hb5 | hb5
      · simp only [FileHeader.parse_tail, hen, parse_u16_at, parse_u32_at, parse_u64_at,
        bind, Except.bind, pure, except_pure_eq_ok,
        parseNbytesAt_ok en 2 0 data (by omega), parseNbytesAt_ok en 2 2 data (by omega),
        parseNbytesAt_ok en 4 4 data (by omega), parseNbytesAt_ok en 4 8 data (by omega),
        parseNbytesAt_ok en 4 12 data (by omega), parseNbytesAt_err en 4 16 data (by omega),
        Nat.reduceAdd]
        exact ⟨_, rfl⟩
      rcases Nat.lt_or_ge data.length 24 with hb6 | hb6
      · simp only [FileHeader.parse_tail, hen, parse_u16_at, parse_u32_at, parse_u64_at,
        bind, Except.bind, pure, except_pure_eq_ok,
        parseNbytesAt_ok en 2 0 data (by omega), parseNbytesAt_ok en 2 2 data (by omega),
        parseNbytesAt_ok en 4 4 data (by omega), parseNbytesAt_ok en 4 8 data (by omega),
        parseNbytesAt_ok en 4 12 data (by omega), parseNbytesAt_ok en 4 16 data (by omega),
        parseNbytesAt_err en 4 20 data (by omega),
        Nat.reduceAdd]
        exact ⟨_, rfl⟩
      rcases Nat.lt_or_ge data.length 26 with hb7 | hb7
      · simp only [FileHeader.parse_tail, hen, parse_u16_at, parse_u32_at, parse_u64_at,
        bind, Except.bind, pure, except_pure_eq_ok,
        parseNbytesAt_ok en 2 0 data (by omega), parseNbytesAt_ok en 2 2 data (by omega),
        parseNbytesAt_ok en 4 4 data (by omega), parseNbytesAt_ok en 4 8 data (by omega),
        parseNbytesAt_ok en 4 12 data (by omega), parseNbytesAt_ok en 4 16 data (by omega),
        parseNbytesAt_ok en 4 20 data (by omega), parseNbytesAt_err en 2 24 data (by omega),
        Nat.reduceAdd]
        exact ⟨_, rfl⟩
      rcases Nat.lt_or_ge data.length 28 with hb8 | hb8
      · simp only [FileHeader.parse_tail, hen, parse_u16_at, parse_u32_at, parse_u64_at,
        bind, Except.bind, pure, except_pure_eq_ok,
        parseNbytesAt_ok en 2 0 data (by omega), parseNbytesAt_ok en 2 2 data (by omega),
        parseNbytesAt_ok en 4 4 data (by omega), parseNbytesAt_ok en 4 8 data (by omega),
        parseNbytesAt_ok en 4 12 data (by omega), parseNbytesAt_ok en 4 16 data (by omega),
        parseNbytesAt_ok en 4 20 data (by omega), parseNbytesAt_ok en 2 24 data (by omega),
        parseNbytesAt_err en 2 26 data (by omega),
        Nat.reduceAdd]
        exact ⟨_, rfl⟩
      rcases Nat.lt_or_ge data.length 30 with hb9 | hb9
      · simp only [FileHeader.parse_tail, hen, parse_u16_at, parse_u32_at, parse_u64_at,
        bind, Except.bind, pure, except_pure_eq_ok,
        parseNbytesAt_ok en 2 0 data (by omega), parseNbytesAt_ok en 2 2 data (by omega),
        parseNbytesAt_ok en 4 4 data (by omega), parseNbytesAt_ok en 4 8 data (by omega),
        parseNbytesAt_ok en 4 12 data (by omega), parseNbytesAt_ok en 4 16 data (by omega),
        parseNbytesAt_ok en 4 20 data (by omega), parseNbytesAt_ok en 2 24 data (by omega),
        parseNbytesAt_ok en 2 26 data (by omega), parseNbytesAt_err en 2 28 data (by omega),
        Nat.reduceAdd]
        exact ⟨_, rfl⟩
      rcases Nat.lt_or_ge data.length 32 with hb10 | hb10
      · simp only [FileHeader.parse_tail, hen, parse_u16_at, parse_u32_at, parse_u64_at,
        bind, Except.bind, pure, except_pure_eq_ok,
        parseNbytesAt_ok en 2 0 data (by omega), parseNbytesAt_ok en 2 2 data (by omega),
        parseNbytesAt_ok en 4 4 data (by omega), parseNbytesAt_ok en 4 8 data (by omega),
        parseNbytesAt_ok en 4 12 data (by omega), parseNbytesAt_ok en 4 16 data (by omega),
        parseNbytesAt_ok en 4 20 data (by omega), parseNbytesAt_ok en 2 24 data (by omega),
        parseNbytesAt_ok en 2 26 data (by omega), parseNbytesAt_ok en 2 28 data (by omega),
        parseNbytesAt_err en 2 30 data (by omega),
        Nat.reduceAdd]
        exact ⟨_, rfl⟩
      rcases Nat.lt_or_ge data.length 34 with hb11 | hb11
      · simp only [FileHeader.parse_tail, hen, parse_u16_at, parse_u32_at, parse_u64_at,
        bind, Except.bind, pure, except_pure_eq_ok,
        parseNbytesAt_ok en 2 0 data (by omega), parseNbytesAt_ok en 2 2 data (by omega),
        parseNbytesAt_ok en 4 4 data (by omega), parseNbytesAt_ok en 4 8 data (by omega),
        parseNbytesAt_ok en 4 12 data (by omega), parseNbytesAt_ok en 4 16 data (by omega),
        parseNbytesAt_ok en 4 20 data (by omega), parseNbytesAt_ok en 2 24 data (by omega),
        parseNbytesAt_ok en 2 26 data (by omega), parseNbytesAt_ok en 2 28 data (by omega),
        parseNbytesAt_ok en 2 30 data (by omega), parseNbytesAt_err en 2 32 data (by omega),
        Nat.reduceAdd]
        exact ⟨_, rfl⟩
      · simp only [FileHeader.parse_tail, hen, parse_u16_at, parse_u32_at, parse_u64_at,
        bind, Except.bind, pure, except_pure_eq_ok,
        parseNbytesAt_ok en 2 0 data (by omega), parseNbytesAt_ok en 2 2 data (by omega),
        parseNbytesAt_ok en 4 4 data (by omega), parseNbytesAt_ok en 4 8 data (by omega),
        parseNbytesAt_ok en 4 12 data (by omega), parseNbytesAt_ok en 4 16 data (by omega),
        parseNbytesAt_ok en 4 20 data (by omega), parseNbytesAt_ok en 2 24 data (by omega),
        parseNbytesAt_ok en 2 26 data (by omega), parseNbytesAt_ok en 2 28 data (by omega),
        parseNbytesAt_ok en 2 30 data (by omega), parseNbytesAt_ok en 2 32 data (by omega),
        parseNbytesAt_err en 2 34 data (by omega),
        Nat.reduceAdd]
        exact ⟨_, rfl⟩
    | ELF64 =>
      have hlt2 : data.length < 48 := hlt
      rcases Nat.lt_or_ge data.length 2 with hb0 | hb0
      · simp only [FileHeader.parse_tail, hen, parse_u16_at, parse_u32_at, parse_u64_at,
        bind, Except.bind, pure, except_pure_eq_ok,
        parseNbytesAt_err en 2 0 data (by omega),
        Nat.reduceAdd]
        exact ⟨_, rfl⟩
      rcases Nat.lt_or_ge data.length 4 with hb1 | hb1
      · simp only [FileHeader.parse_tail, hen, parse_u16_at, parse_u32_at, parse_u64_at,
        bind, Except.bind, pure, except_pure_eq_ok,
        parseNbytesAt_ok en 2 0 data (by omega), parseNbytesAt_err en 2 2 data (by omega),
        Nat.reduceAdd]
        exact ⟨_, rfl⟩
      rcases Nat.lt_or_ge data.length 8 with hb2 | hb2
      · simp only [FileHeader.parse_tail, hen, parse_u16_at, parse_u32_at, parse_u64_at,
        bind, Except.bind, pure, except_pure_eq_ok,
        parseNbytesAt_ok en 2 0 data (by omega), parseNbytesAt_ok en 2 2 data (by omega),
        parseNbytesAt_err en 4 4 data (by omega),
        Nat.reduceAdd]
        exact ⟨_, rfl⟩
      rcases Nat.lt_or_ge data.length 16 with hb3 | hb3
      · simp only [FileHeader.parse_tail, hen, parse_u16_at, parse_u32_at, parse_u64_at,
        bind, Except.bind, pure, except_pure_eq_ok,
        parseNbytesAt_ok en 2 0 data (by omega), parseNbytesAt_ok en 2 2 data (by omega),
        parseNbytesAt_ok en 4 4 data (by omega), parseNbytesAt_err en 8 8 data (by omega),
        Nat.reduceAdd]
        exact ⟨_, rfl⟩
      rcases Nat.lt_or_ge data.length 24 with hb4 | hb4
      · simp only [FileHeader.parse_tail, hen, parse_u16_at, parse_u32_at, parse_u64_at,
        bind, Except.bind, pure, except_pure_eq_ok,
        parseNbytesAt_ok en 2 0 data (by omega), parseNbytesAt_ok en 2 2 data (by omega),
        parseNbytesAt_ok en 4 4 data (by omega), parseNbytesAt_ok en 8 8 data (by omega),
        parseNbytesAt_err en 8 16 data (by omega),
        Nat.reduceAdd]
        exact ⟨_, rfl⟩
      rcases Nat.lt_or_ge data.length 32 with hb5 | hb5
      · simp only [FileHeader.parse_tail, hen, parse_u16_at, parse_u32_at, parse_u64_at,
        bind, Except.bind, pure, except_pure_eq_ok,
        parseNbytesAt_ok en 2 0 data (by omega), parseNbytesAt_ok en 2 2 data (by omega),
        parseNbytesAt_ok en 4 4 data (by omega), parseNbytesAt_ok en 8 8 data (by omega),
        parseNbytesAt_ok en 8 16 data (by omega), parseNbytesAt_err en 8 24 data (by omega),
        Nat.reduceAdd]
        exact ⟨_, rfl⟩
      rcases Nat.lt_or_ge data.length 36 with hb6 | hb6
      · simp only [FileHeader.parse_tail, hen, parse_u16_at, parse_u32_at, parse_u64_at,
        bind, Except.bind, pure, except_pure_eq_ok,
        parseNbytesAt_ok en 2 0 data (by omega), parseNbytesAt_ok en 2 2 data (by omega),
        parseNbytesAt_ok en 4 4 data (by omega), parseNbytesAt_ok en 8 8 data (by omega),
        parseNbytesAt_ok en 8 16 data (by omega), parseNbytesAt_ok en 8 24 data (by omega),
        parseNbytesAt_err en 4 32 data (by omega),
        Nat.reduceAdd]
        exact ⟨_, rfl⟩
      rcases Nat.lt_or_ge data.length 38 with hb7 | hb7
      · simp only [FileHeader.parse_tail, hen, parse_u16_at, parse_u32_at, parse_u64_at,
        bind, Except.bind, pure, except_pure_eq_ok,
        parseNbytesAt_ok en 2 0 data (by omega), parseNbytesAt_ok en 2 2 data (by omega),
        parseNbytesAt_ok en 4 4 data (by omega), parseNbytesAt_ok en 8 8 data (by omega),
        parseNbytesAt_ok en 8 16 data (by omega), parseNbytesAt_ok en 8 24 data (by omega),
        parseNbytesAt_ok en 4 32 data (by omega), parseNbytesAt_err en 2 36 data (by omega),
        Nat.reduceAdd]
        exact ⟨_, rfl⟩
      rcases Nat.lt_or_ge data.length 40 with hb8 | hb8
      · simp only [FileHeader.parse_tail, hen, parse_u16_at, parse_u32_at, parse_u64_at,
        bind, Except.bind, pure, except_pure_eq_ok,
        parseNbytesAt_ok en 2 0 data (by omega), parseNbytesAt_ok en 2 2 data (by omega),
        parseNbytesAt_ok en 4 4 data (by omega), parseNbytesAt_ok en 8 8 data (by omega),
        parseNbytesAt_ok en 8 16 data (by omega), parseNbytesAt_ok en 8 24 data (by omega),
        parseNbytesAt_ok en 4 32 data (by omega), parseNbytesAt_ok en 2 36 data (by omega),
        parseNbytesAt_err en 2 38 data (by omega),
        Nat.reduceAdd]
        exact ⟨_, rfl⟩
      rcases Nat.lt_or_ge data.length 42 with hb9 | hb9
      · simp only [FileHeader.parse_tail, hen, parse_u16_at, parse_u32_at, parse_u64_at,
        bind, Except.bind, pure, except_pure_eq_ok,
        parseNbytesAt_ok en 2 0 data (by omega), parseNbytesAt_ok en 2 2 data (by omega),
        parseNbytesAt_ok en 4 4 data (by omega), parseNbytesAt_ok en 8 8 data (by omega),
        parseNbytesAt_ok en 8 16 data (by omega), parseNbytesAt_ok en 8 24 data (by omega),
        parseNbytesAt_ok en 4 32 data (by omega), parseNbytesAt_ok en 2 36 data (by omega),
        parseNbytesAt_ok en 2 38 data (by omega), parseNbytesAt_err en 2 40 data (by omega),
        Nat.reduceAdd]
        exact ⟨_, rfl⟩
      rcases Nat.lt_or_ge data.length 44 with hb10 | hb10
      · simp only [FileHeader.parse_tail, hen, parse_u16_at, parse_u32_at, parse_u64_at,
        bind, Except.bind, pure, except_pure_eq_ok,
        parseNbytesAt_ok en 2 0 data (by omega), parseNbytesAt_ok en 2 2 data (by omega),
        parseNbytesAt_ok en 4 4 data (by omega), parseNbytesAt_ok en 8 8 data (by omega),
        parseNbytesAt_ok en 8 16 data (by omega), parseNbytesAt_ok en 8 24 data (by omega),
        parseNbytesAt_ok en 4 32 data (by omega), parseNbytesAt_ok en 2 36 data (by omega),
        parseNbytesAt_ok en 2 38 data (by omega), parseNbytesAt_ok en 2 40 data (by omega),
        parseNbytesAt_err en 2 42 data (by omega),
        Nat.reduceAdd]
        exact ⟨_, rfl⟩
      rcases Nat.lt_or_ge data.length 46 with hb11 | hb11
      · simp only [FileHeader.parse_tail, hen, parse_u16_at, parse_u32_at, parse_u64_at,
        bind, Except.bind, pure, except_pure_eq_ok,
        parseNbytesAt_ok en 2 0 data (by omega), parseNbytesAt_ok en 2 2 data (by omega),
        parseNbytesAt_ok en 4 4 data (by omega), parseNbytesAt_ok en 8 8 data (by omega),
        parseNbytesAt_ok en 8 16 data (by omega), parseNbytesAt_ok en 8 24 data (by omega),
        parseNbytesAt_ok en 4 32 data (by omega), parseNbytesAt_ok en 2 36 data (by omega),
        parseNbytesAt_ok en 2 38 data (by omega), parseNbytesAt_ok en 2 40 data (by omega),
        parseNbytesAt_ok en 2 42 data (by omega), parseNbytesAt_err en 2 44 data (by omega),
        Nat.reduceAdd]
        exact ⟨_, rfl⟩
      · simp only [FileHeader.parse_tail, hen, parse_u16_at, parse_u32_at, parse_u64_at,
        bind, Except.bind, pure, except_pure_eq_ok,
        parseNbytesAt_ok en 2 0 data (by omega), parseNbytesAt_ok en 2 2 data (by omega),
        parseNbytesAt_ok en 4 4 data (by omega), parseNbytesAt_ok en 8 8 data (by omega),
        parseNbytesAt_ok en 8 16 data (by omega), parseNbytesAt_ok en 8 24 data (by omega),
        parseNbytesAt_ok en 4 32 data (by omega), parseNbytesAt_ok en 2 36 data (by omega),
        parseNbytesAt_ok en 2 38 data (by omega), parseNbytesAt_ok en 2 40 data (by omega),
        parseNbytesAt_ok en 2 42 data (by omega), parseNbytesAt_ok en 2 44 data (by omega),
        parseNbytesAt_err en 2 46 data (by omega),
        Nat.reduceAdd]
        exact ⟨_, rfl⟩
  · intro heq
    cases cls with
    | ELF32 =>
      have h36 : data.length = 36 := heq
      exact ⟨_, parse_tail_elf32_ok ei en osabi abiver data hen (by omega)⟩
    | ELF64 =>
      have h48 : data.length = 48 := heq
      exact ⟨_, parse_tail_elf64_ok ei en osabi abiver data hen (by omega)⟩

/-- Witness for claim C5: a 20-byte 32-bit little-endian tail fails with a
short read, and a 36-byte one parses. -/
theorem parse_tail_short_read_and_exact_size_witness :
    (∃ p, FileHeader.parse_tail (1, .ELF32, 0, 0) (List.replicate 20 0) =
      .error (.SliceReadError p)) ∧
    (∃ hd, FileHeader.parse_tail (1, .ELF32, 0, 0) (List.replicate 36 0) = .ok hd) :=
  ⟨(parse_tail_short_read_and_exact_size 1 .Little .ELF32 0 0
      (List.replicate 20 0) rfl).1 (by decide),
   (parse_tail_short_read_and_exact_size 1 .Little .ELF32 0 0
      (List.replicate 36 0) rfl).2 (by decide)⟩


lemma decodeLE_lt (bs : List Nat) (h : ∀ b ∈ bs, b < 256) :
    bs.foldr (fun b acc => b + 256 * acc) 0 < 2 ^ (8 * bs.length) := by
  induction bs with
  | nil => simp
  | cons b t ih =>
    have hb : b < 256 := h b (List.mem_cons_self b t)
    have ht := ih (fun x hx => h x (List.mem_cons_of_mem b hx))
    simp only [List.foldr_cons, List.length_cons]
    have he : 8 * (t.length + 1) = 8 * t.length + 8 := by ring
    rw [he, pow_add]
    have h28 : (2 : Nat) ^ 8 = 256 := by norm_num
    rw [h28]
    nlinarith [ht, hb]

lemma decodeBE_lt_aux (bs : List Nat) (h : ∀ b ∈ bs, b < 256) :
    ∀ acc, bs.foldl (fun acc b => acc * 256 + b) acc < (acc + 1) * 2 ^ (8 * bs.length) := by
  induction bs with
  | nil => intro acc; simp
  | cons b t ih =>
    intro acc
    have hb : b < 256 := h b (List.mem_cons_self b t)
    have ht := ih (fun x hx => h x (List.mem_cons_of_mem b hx)) (acc * 256 + b)
    simp only [List.foldl_cons, List.length_cons]
    have he : 8 * (t.length + 1) = 8 * t.length + 8 := by ring
    rw [he, pow_add]
    have h28 : (2 : Nat) ^ 8 = 256 := by norm_num
    rw [h28]
    have hmul : (acc * 256 + b + 1) * 2 ^ (8 * t.length) ≤
        (acc + 1) * (2 ^ (8 * t.length) * 256) := by
      have hstep : acc * 256 + b + 1 ≤ (acc + 1) * 256 := by omega
      calc (acc * 256 + b + 1) * 2 ^ (8 * t.length)
          ≤ ((acc + 1) * 256) * 2 ^ (8 * t.length) := Nat.mul_le_mul_right _ hstep
        _ = (acc + 1) * (2 ^ (8 * t.length) * 256) := by ring
    exact lt_of_lt_of_le ht hmul

/-- A decoded run of true bytes (each < 256) fits in 8 bits per byte. -/
lemma decodeNat_lt (en : Endian) (bs : List Nat) (h : ∀ b ∈ bs, b < 256) :
    decodeNat en bs < 2 ^ (8 * bs.length) := by
  cases en with
  | Little => exact decodeLE_lt bs h
  | Big => simpa using decodeBE_lt_aux bs h 0

lemma decode_slice_lt (en : Endian) (data : List Nat) (o w : Nat)
    (h : ∀ b ∈ data, b < 256) :
    decodeNat en ((data.drop o).take w) < 2 ^ (8 * w) := by
  have hsubset : (data.drop o).take w ⊆ data :=
    (List.take_subset _ _).trans (List.drop_subset _ _)
  have hlen : ((data.drop o).take w).length ≤ w := by
    simp [List.length_take]
  exact lt_of_lt_of_le (decodeNat_lt en _ (fun b hb => h b (hsubset hb)))
    (Nat.pow_le_pow_right (by norm_num) (by omega))

/-- Claim C6: on a sufficiently long tail of true bytes, the entry point, the
program-header offset and the section-header offset are each decoded at the
native class width (offsets 8/12/16 with 4 bytes for 32-bit; offsets 8/16/24
with 8 bytes for 64-bit) in the file's byte order, and the stored 64-bit
value is the decoded native-width value unchanged (zero-extended widening). -/
theorem parse_tail_addresses_native_width (ei : Nat) (en : Endian)
    (osabi abiver : Nat) (data : List Nat)
    (hen : AnyEndian.from_ei_data ei = .ok en)
    (hbytes : ∀ b ∈ data, b < 256) :
    (36 ≤ data.length → ∃ hd,
      FileHeader.parse_tail (ei, .ELF32, osabi, abiver) data = .ok hd ∧
      hd.e_entry = decodeNat en ((data.drop 8).take 4) ∧ hd.e_entry < 2 ^ 32 ∧
      hd.e_phoff = decodeNat en ((data.drop 12).take 4) ∧ hd.e_phoff < 2 ^ 32 ∧
      hd.e_shoff = decodeNat en ((data.drop 16).take 4) ∧ hd.e_shoff < 2 ^ 32) ∧
    (48 ≤ data.length → ∃ hd,
      FileHeader.parse_tail (ei, .ELF64, osabi, abiver) data = .ok hd ∧
      hd.e_entry = decodeNat en ((data.drop 8).take 8) ∧ hd.e_entry < 2 ^ 64 ∧
      hd.e_phoff = decodeNat en ((data.drop 16).take 8) ∧ hd.e_phoff < 2 ^ 64 ∧
      hd.e_shoff = decodeNat en ((data.drop 24).take 8) ∧ hd.e_shoff < 2 ^ 64) := by
  constructor
  · intro h
    refine ⟨_, parse_tail_elf32_ok ei en osabi abiver data hen h,
      rfl, ?_, rfl, ?_, rfl, ?_⟩
    · simpa using decode_slice_lt en data 8 4 hbytes
    · simpa using decode_slice_lt en data 12 4 hbytes
    · simpa using decode_slice_lt en data 16 4 hbytes
  · intro h
    refine ⟨_, parse_tail_elf64_ok ei en osabi abiver data hen h,
      rfl, ?_, rfl, ?_, rfl, ?_⟩
    · simpa using decode_slice_lt en data 8 8 hbytes
    · simpa using decode_slice_lt en data 16 8 hbytes
    · simpa using decode_slice_lt en data 24 8 hbytes

/-- Witness for claim C6: the spec's example tails with bytes 0,1,2,...:
32-bit little-endian gives entry point `0x0B0A0908` (bytes 8..11), 64-bit
big-endian gives `0x08090A0B0C0D0E0F` (bytes 8..15). -/
theorem parse_tail_addresses_native_width_witness :
    (∃ hd, FileHeader.parse_tail (1, .ELF32, 0, 0) (List.range 36) = .ok hd ∧
      hd.e_entry = 0x0B0A0908) ∧
    (∃ hd, FileHeader.parse_tail (2, .ELF64, 0, 0) (List.range 48) = .ok hd ∧
      hd.e_entry = 0x08090A0B0C0D0E0F) := by
  constructor
  · obtain ⟨hd, hp, he, _⟩ := (parse_tail_addresses_native_width 1 .Little 0 0
      (List.range 36) rfl (by decide)).1 (by decide)
    exact ⟨hd, hp, by rw [he]; decide⟩
  · obtain ⟨hd, hp, he, _⟩ := (parse_tail_addresses_native_width 2 .Big 0 0
      (List.range 48) rfl (by decide)).2 (by decide)
    exact ⟨hd, hp, by rw [he]; decide⟩


lemma validate_entsize_ok (cls : Class) (sz : Nat)
    (h : sz = (match cls with | .ELF32 => 0x20 | .ELF64 => 0x38)) :
    ProgramHeader.validate_entsize cls sz = .ok sz := by
  unfold ProgramHeader.validate_entsize
  exact if_pos h

lemma validate_entsize_err (cls : Class) (sz : Nat)
    (h : sz ≠ (match cls with | .ELF32 => 0x20 | .ELF64 => 0x38)) :
    ProgramHeader.validate_entsize cls sz = .error (.MismatchedEntsize sz) := by
  unfold ProgramHeader.validate_entsize
  exact if_neg h

/-- Claim C7: the program-header range is `none` (not an error) whenever the
count is 0, regardless of offset and entry size; with a nonzero count a
mismatched entry size is a `MismatchedEntsize` error; otherwise the range is
`(start, start + entSize * count)` computed with checked arithmetic, and any
of the three checked steps exceeding the `W`-bit native address range yields
an `IntegerOverflow` error instead of wrapping. -/
theorem get_phdrs_data_range_checked (W : Nat) (h : FileHeader) :
    (h.e_phnum = 0 → h.get_phdrs_data_range W = .ok none) ∧
    (h.e_phnum ≠ 0 →
      h.e_phentsize ≠ (match h.cls with | .ELF32 => 0x20 | .ELF64 => 0x38) →
      h.get_phdrs_data_range W = .error (.MismatchedEntsize h.e_phentsize)) ∧
    (h.e_phnum ≠ 0 →
      h.e_phentsize = (match h.cls with | .ELF32 => 0x20 | .ELF64 => 0x38) →
      h.e_phoff < 2 ^ W → h.e_phentsize * h.e_phnum < 2 ^ W →
      h.e_phoff + h.e_phentsize * h.e_phnum < 2 ^ W →
      h.get_phdrs_data_range W =
        .ok (some (h.e_phoff, h.e_phoff + h.e_phentsize * h.e_phnum))) ∧
    (h.e_phnum ≠ 0 →
      h.e_phentsize = (match h.cls with | .ELF32 => 0x20 | .ELF64 => 0x38) →
      (2 ^ W ≤ h.e_phoff ∨ 2 ^ W ≤ h.e_phentsize * h.e_phnum ∨
        2 ^ W ≤ h.e_phoff + h.e_phentsize * h.e_phnum) →
      h.get_phdrs_data_range W = .error .IntegerOverflow) := by
  refine ⟨?_, ?_, ?_, ?_⟩
  · intro h0
    unfold FileHeader.get_phdrs_data_range
    exact if_pos h0
  · intro h0 hsz
    unfold FileHeader.get_phdrs_data_range
    simp only [if_neg h0, validate_entsize_err h.cls h.e_phentsize hsz]
  · intro h0 hsz hoff hmul hadd
    unfold FileHeader.get_phdrs_data_range
    simp only [if_neg h0, validate_entsize_ok h.cls h.e_phentsize hsz,
      usize_try_from, if_pos hoff, checked_mul, if_pos hmul, checked_add, if_pos hadd]
  · intro h0 hsz hov
    unfold FileHeader.get_phdrs_data_range
    by_cases hoff : h.e_phoff < 2 ^ W
    · by_cases hmul : h.e_phentsize * h.e_phnum < 2 ^ W
      · have hadd : ¬ h.e_phoff + h.e_phentsize * h.e_phnum < 2 ^ W := by omega
        simp only [if_neg h0, validate_entsize_ok h.cls h.e_phentsize hsz,
          usize_try_from, if_pos hoff, checked_mul, if_pos hmul, checked_add,
          if_neg hadd]
      · simp only [if_neg h0, validate_entsize_ok h.cls h.e_phentsize hsz,
          usize_try_from, if_pos hoff, checked_mul, if_neg hmul]
    · simp only [if_neg h0, validate_entsize_ok h.cls h.e_phentsize hsz,
        usize_try_from, if_neg hoff]

/-- Witness for claim C7: with count 0 the range is `none`; and on a narrow
4-bit address space a single 0x20-byte entry already overflows, giving
`IntegerOverflow` instead of a wrapped range. -/
theorem get_phdrs_data_range_checked_witness :
    FileHeader.get_phdrs_data_range 32
      { cls := .ELF32, ei_data := 1, version := 1, osabi := 0, abiversion := 0,
        e_type := 2, e_machine := 3, e_entry := 0, e_phoff := 7, e_shoff := 0,
        e_flags := 0, e_ehsize := 52, e_phentsize := 9, e_phnum := 0,
        e_shentsize := 40, e_shnum := 0, e_shstrndx := 0 } = .ok none ∧
    FileHeader.get_phdrs_data_range 4
      { cls := .ELF32, ei_data := 1, version := 1, osabi := 0, abiversion := 0,
        e_type := 2, e_machine := 3, e_entry := 0, e_phoff := 0, e_shoff := 0,
        e_flags := 0, e_ehsize := 52, e_phentsize := 0x20, e_phnum := 1,
        e_shentsize := 40, e_shnum := 0, e_shstrndx := 0 } =
      .error .IntegerOverflow :=
  ⟨(get_phdrs_data_range_checked 32
      { cls := .ELF32, ei_data := 1, version := 1, osabi := 0, abiversion := 0,
        e_type := 2, e_machine := 3, e_entry := 0, e_phoff := 7, e_shoff := 0,
        e_flags := 0, e_ehsize := 52, e_phentsize := 9, e_phnum := 0,
        e_shentsize := 40, e_shnum := 0, e_shstrndx := 0 }).1 rfl,
   (get_phdrs_data_range_checked 4
      { cls := .ELF32, ei_data := 1, version := 1, osabi := 0, abiversion := 0,
        e_type := 2, e_machine := 3, e_entry := 0, e_phoff := 0, e_shoff := 0,
        e_flags := 0, e_ehsize := 52, e_phentsize := 0x20, e_phnum := 1,
        e_shentsize := 40, e_shnum := 0, e_shstrndx := 0 }).2.2.2
      (by decide) (by decide) (.inr (.inl (by decide)))⟩


lemma and_mask_eq_mod8 (n : Nat) : n &&& 0xFF = n % 2 ^ 8 := by
  have h := Nat.and_pow_two_sub_one_eq_mod n 8
  norm_num at h ⊢
  exact h

lemma and_mask_eq_mod32 (n : Nat) : n &&& 0xFFFFFFFF = n % 2 ^ 32 := by
  have h := Nat.and_pow_two_sub_one_eq_mod n 32
  norm_num at h ⊢
  exact h

/-- A `w`-bit two's-complement value lies in the signed `w`-bit range: the
widening to a wider signed type preserves the value and its sign. -/
lemma toSigned_range (w v : Nat) (hw : 1 ≤ w) (hv : v < 2 ^ w) :
    -(2 ^ (w - 1) : Int) ≤ toSigned w v ∧ toSigned w v < 2 ^ (w - 1) := by
  have h2 : (2 : Int) ^ w = 2 ^ (w - 1) * 2 := by
    rw [← pow_succ]
    congr 1
    omega
  have hvi : (v : Int) < 2 ^ w := by exact_mod_cast hv
  unfold toSigned
  split
  · rename_i hlt
    have hlt2 : (v : Int) < 2 ^ (w - 1) := by exact_mod_cast hlt
    exact ⟨le_trans (neg_nonpos.2 (by positivity)) (Int.natCast_nonneg v), hlt2⟩
  · rename_i hge
    have hge2 : (2 ^ (w - 1) : Int) ≤ v := by
      have := Nat.le_of_not_lt hge
      exact_mod_cast this
    constructor
    · linarith
    · have hneg : (v : Int) - 2 ^ w < 0 := by linarith
      have hpos : (0 : Int) < 2 ^ (w - 1) := by positivity
      linarith

/-- Claim C8: for every successfully decoded Rel/Rela record, the 32-bit info
field splits as type = info mod 2^8 (low 8 bits) and symbol = info / 2^8
(remaining 24 bits), the 64-bit info field splits at the 32-bit boundary
(type = info mod 2^32, symbol = info / 2^32); the offset is the native-width
decode widened to 64 bits unchanged, and Rela's addend is the native-width
two's-complement value, whose sign and value the widening preserves. -/
theorem rel_rela_info_packing (en : Endian) (data : List Nat) (c : Nat)
    (hbytes : ∀ b ∈ data, b < 256) :
    (c + 8 ≤ data.length →
      Rel.parse_at en .ELF32 c data = .ok
        (⟨decodeNat en ((data.drop c).take 4),
          decodeNat en ((data.drop (c + 4)).take 4) / 2 ^ 8,
          decodeNat en ((data.drop (c + 4)).take 4) % 2 ^ 8⟩, c + 8) ∧
      decodeNat en ((data.drop c).take 4) < 2 ^ 32) ∧
    (c + 16 ≤ data.length →
      Rel.parse_at en .ELF64 c data = .ok
        (⟨decodeNat en ((data.drop c).take 8),
          decodeNat en ((data.drop (c + 8)).take 8) / 2 ^ 32,
          decodeNat en ((data.drop (c + 8)).take 8) % 2 ^ 32⟩, c + 16)) ∧
    (c + 12 ≤ data.length →
      Rela.parse_at en .ELF32 c data = .ok
        (⟨decodeNat en ((data.drop c).take 4),
          decodeNat en ((data.drop (c + 4)).take 4) / 2 ^ 8,
          decodeNat en ((data.drop (c + 4)).take 4) % 2 ^ 8,
          toSigned 32 (decodeNat en ((data.drop (c + 8)).take 4))⟩, c + 12) ∧
      -(2 ^ 31 : Int) ≤ toSigned 32 (decodeNat en ((data.drop (c + 8)).take 4)) ∧
      toSigned 32 (decodeNat en ((data.drop (c + 8)).take 4)) < 2 ^ 31) ∧
    (c + 24 ≤ data.length →
      Rela.parse_at en .ELF64 c data = .ok
        (⟨decodeNat en ((data.drop c).take 8),
          decodeNat en ((data.drop (c + 8)).take 8) / 2 ^ 32,
          decodeNat en ((data.drop (c + 8)).take 8) % 2 ^ 32,
          toSigned 64 (decodeNat en ((data.drop (c + 16)).take 8))⟩, c + 24)) := by
  refine ⟨?_, ?_, ?_, ?_⟩
  · intro h
    constructor
    · unfold Rel.parse_at
      simp only [parse_u32_at,
        parseNbytesAt_ok en 4 c data (by omega),
        parseNbytesAt_ok en 4 (c + 4) data (by omega),
        Nat.shiftRight_eq_div_pow, and_mask_eq_mod8, Nat.add_assoc, Nat.reduceAdd]
    · simpa using decode_slice_lt en data c 4 hbytes
  · intro h
    unfold Rel.parse_at
    simp only [parse_u64_at,
      parseNbytesAt_ok en 8 c data (by omega),
      parseNbytesAt_ok en 8 (c + 8) data (by omega),
      Nat.shiftRight_eq_div_pow, and_mask_eq_mod32, Nat.add_assoc, Nat.reduceAdd]
  · intro h
    refine ⟨?_, ?_⟩
    · unfold Rela.parse_at
      simp only [parse_u32_at, parse_i32_at,
        parseNbytesAt_ok en 4 c data (by omega),
        parseNbytesAt_ok en 4 (c + 4) data (by omega),
        parseNbytesAt_ok en 4 (c + 8) data (by omega),
        Nat.shiftRight_eq_div_pow, and_mask_eq_mod8, Nat.add_assoc, Nat.reduceAdd]
    · exact toSigned_range 32 _ (by norm_num)
        (by simpa using decode_slice_lt en data (c + 8) 4 hbytes)
  · intro h
    unfold Rela.parse_at
    simp only [parse_u64_at, parse_i64_at,
      parseNbytesAt_ok en 8 c data (by omega),
      parseNbytesAt_ok en 8 (c + 8) data (by omega),
      parseNbytesAt_ok en 8 (c + 16) data (by omega),
      Nat.shiftRight_eq_div_pow, and_mask_eq_mod32, Nat.add_assoc, Nat.reduceAdd]

/-- Witness for claim C8: 32-bit info `0x00000704` gives symbol index 7 and
type 4; the equivalent 64-bit info `0x0000000700000004` splits at the 32-bit
boundary into the same symbol index 7 and type 4. -/
theorem rel_rela_info_packing_witness :
    Rel.parse_at .Little .ELF32 0 [0, 0, 0, 0, 0x04, 0x07, 0, 0] =
      .ok (⟨0, 7, 4⟩, 8) ∧
    Rel.parse_at .Little .ELF64 0
      [0, 0, 0, 0, 0, 0, 0, 0, 4, 0, 0, 0, 7, 0, 0, 0] = .ok (⟨0, 7, 4⟩, 16) := by
  constructor
  · have h := (rel_rela_info_packing .Little [0, 0, 0, 0, 0x04, 0x07, 0, 0] 0
      (by decide)).1 (by decide)
    rw [h.1]
    decide
  · have h := (rel_rela_info_packing .Little
      [0, 0, 0, 0, 0, 0, 0, 0, 4, 0, 0, 0, 7, 0, 0, 0] 0 (by decide)).2.1 (by decide)
    rw [h]
    decide


/-- Claim C9: `SysVHashTable::new` decodes the 2-word header, then slices
`bucketCount * 4` bytes for the bucket table and the next `chainCount * 4`
bytes for the chain table; a slice extending past the buffer fails at
construction with a bad-offset error (buckets first, then chains), and when
both slices fit construction succeeds with tables of exactly those lengths. -/
theorem sysv_new_eager_slice_checks (en : Endian) (cls : Class)
    (data : List Nat) (nb nc : Nat)
    (hlen : 8 ≤ data.length)
    (hnb : nb = decodeNat en (data.take 4))
    (hnc : nc = decodeNat en ((data.drop 4).take 4)) :
    (data.length < 8 + nb * 4 →
      SysVHashTable.new en cls data = .error (.BadOffset 8)) ∧
    (8 + nb * 4 ≤ data.length → data.length < 8 + nb * 4 + nc * 4 →
      SysVHashTable.new en cls data = .error (.BadOffset (8 + nb * 4))) ∧
    (8 + nb * 4 + nc * 4 ≤ data.length →
      ∃ t, SysVHashTable.new en cls data = .ok t ∧
        t.buckets.len = nb ∧ t.chains.len = nc) := by
  refine ⟨?_, ?_, ?_⟩
  · intro hlt
    simp only [SysVHashTable.new, SysVHashHeader.parse_at, parse_u32_at,
      parseNbytesAt_ok en 4 0 data (by omega), parseNbytesAt_ok en 4 4 data (by omega),
      u32SizeFor, List.drop_zero, Nat.reduceAdd, getRange?]
    rw [← hnb, ← hnc]
    rw [if_neg (by omega : ¬(8 ≤ 8 + nb * 4 ∧ 8 + nb * 4 ≤ data.length))]
  · intro hge hlt
    simp only [SysVHashTable.new, SysVHashHeader.parse_at, parse_u32_at,
      parseNbytesAt_ok en 4 0 data (by omega), parseNbytesAt_ok en 4 4 data (by omega),
      u32SizeFor, List.drop_zero, Nat.reduceAdd, getRange?]
    rw [← hnb, ← hnc]
    rw [if_pos (⟨by omega, hge⟩ :
        8 ≤ 8 + nb * 4 ∧ 8 + nb * 4 ≤ data.length)]
    rw [if_neg (by omega :
        ¬(8 + nb * 4 ≤ 8 + nb * 4 + nc * 4 ∧ 8 + nb * 4 + nc * 4 ≤ data.length))]
  · intro hfit
    simp only [SysVHashTable.new, SysVHashHeader.parse_at, parse_u32_at,
      parseNbytesAt_ok en 4 0 data (by omega), parseNbytesAt_ok en 4 4 data (by omega),
      u32SizeFor, List.drop_zero, Nat.reduceAdd, getRange?]
    rw [← hnb, ← hnc]
    rw [if_pos (⟨by omega, by omega⟩ :
        8 ≤ 8 + nb * 4 ∧ 8 + nb * 4 ≤ data.length)]
    rw [if_pos (⟨by omega, hfit⟩ :
        8 + nb * 4 ≤ 8 + nb * 4 + nc * 4 ∧ 8 + nb * 4 + nc * 4 ≤ data.length)]
    refine ⟨_, rfl, ?_, ?_⟩
    · simp only [U32Table.len, List.length_take, List.length_drop]
      omega
    · simp only [U32Table.len, List.length_take, List.length_drop]
      omega

/-- Witness for claim C9: an 8-byte section declaring one bucket has no room
for the bucket slice, so construction fails eagerly with `BadOffset 8`. -/
theorem sysv_new_eager_slice_checks_witness :
    SysVHashTable.new .Little .ELF32 [1, 0, 0, 0, 1, 0, 0, 0] =
      .error (.BadOffset 8) :=
  (sysv_new_eager_slice_checks .Little .ELF32 [1, 0, 0, 0, 1, 0, 0, 0] 1 1
    (by decide) (by decide) (by decide)).1 (by decide)

/-- Claim C3 (the code violates it): `parse_ident` is required to return a
typed result without panicking on buffers of any length, and `find` likewise
on any constructed table, but `verify_ident`/`parse_ident` index the buffer
unchecked — panicking (modelled as `none`) on an empty buffer and even on a
7-byte buffer with valid magic and version — and `find` computes
`hash % buckets.len()`, a division by zero (panic) on a table that
`SysVHashTable::new` happily constructs from a section declaring zero
buckets. -/
theorem parse_ident_and_find_can_panic :
    FileHeader.parse_ident [] = none ∧
    FileHeader.parse_ident [0x7f, 0x45, 0x4c, 0x46, 1, 1, 1] = none ∧
    SysVHashTable.new .Little .ELF32 [0, 0, 0, 0, 0, 0, 0, 0] =
      .ok ⟨⟨.Little, []⟩, ⟨.Little, []⟩⟩ ∧
    SysVHashTable.find ⟨⟨.Little, []⟩, ⟨.Little, []⟩⟩ [] 0 (fun i => .ok ⟨i⟩)
      (fun o => .ok [o]) = none :=
  ⟨by decide, by decide, by decide, rfl⟩

end RustElf
